import Mathlib

/-!
Verification of the data-acquisition layer of the stock/currency pipeline
(`wix.py`): the sliding-window rate limiter, the jittered exponential
backoff, the retrying request executor, the per-date lookup, the fan-out
orchestrator, and the response normalizer.

Times and durations are modelled as rationals (seconds), the injected
clock as explicit time arguments, and `random.random() * 2 - 1` as an
explicit jitter sample `u`.
-/

namespace StockPipeline

/-! ## RateLimiter (`wix.py`, class `RateLimiter`) -/

/-- State of `RateLimiter`: `requests_per_minute`, `burst`, and the
`request_times` list, in source order (append at the end). -/
structure RateLimiter where
  requests_per_minute : ℕ
  burst : ℕ
  request_times : List ℚ

/-- `RateLimiter.calculate_backoff_time(base_wait_time, retry_count, max_wait=60)`
with the jitter sample `u` (the value of `random.random() * 2 - 1`, which lies
in `[-1, 1]`) passed explicitly:
`wait_time = min(max_wait, base_wait_time * 2**retry_count)`;
`jitter = wait_time * 0.1 * u`; result `max(0.1, wait_time + jitter)`. -/
def calculate_backoff_time (base_wait_time : ℚ) (retry_count : ℕ) (u : ℚ)
    (max_wait : ℚ) : ℚ :=
  let wait_time := min max_wait (base_wait_time * 2 ^ retry_count)
  let jitter := wait_time * (1/10) * u
  max (1/10) (wait_time + jitter)

/-- Which return path of `wait_if_needed` was taken: the burst check, the
per-minute check, the `wait_time < 0.1` no-op branch, or the blocking branch. -/
inductive RLBranch where
  | burst
  | perMinute
  | nearExpiry
  | waited
deriving DecidableEq

/-- Result of one `wait_if_needed` call: the new limiter state, the returned
number of seconds waited, and the branch taken. -/
structure RLStep where
  st : RateLimiter
  waited : ℚ
  br : RLBranch

/-- The pruning step `[t for t in self.request_times if now - t < 60]`. -/
def pruneTimes (now : ℚ) (ts : List ℚ) : List ℚ :=
  ts.filter (fun t => decide (now - t < 60))

/-- `RateLimiter.wait_if_needed` with the clock injected: `now` is the value
of `time.time()` at entry, and `time.sleep(wait_time)` is modelled as exact,
so the post-sleep `time.time()` is `now + wait_time`.  (The source reads
`self.request_times[0]` only when the pruned list is nonempty under the
documented configuration `burst > 0`; `headD 0` covers the impossible empty
case.) -/
def wait_if_needed (rl : RateLimiter) (now : ℚ) : RLStep :=
  let ts := pruneTimes now rl.request_times
  if ts.length < rl.burst then
    ⟨⟨rl.requests_per_minute, rl.burst, ts ++ [now]⟩, 0, RLBranch.burst⟩
  else if ts.length < rl.requests_per_minute then
    ⟨⟨rl.requests_per_minute, rl.burst, ts ++ [now]⟩, 0, RLBranch.perMinute⟩
  else
    let oldest_request := ts.headD 0
    let wait_time := max 0 (60 - (now - oldest_request))
    if wait_time < 1/10 then
      ⟨⟨rl.requests_per_minute, rl.burst, ts ++ [now]⟩, 0, RLBranch.nearExpiry⟩
    else
      ⟨⟨rl.requests_per_minute, rl.burst, ts ++ [now + wait_time]⟩, wait_time,
        RLBranch.waited⟩

/-- Run a sequence of `wait_if_needed` calls at the given clock readings,
collecting the full log of admitted (appended) timestamps; the appended
timestamp of a call entered at `now` is `now + waited`. -/
def runLimiter (rl : RateLimiter) (clock : List ℚ) : RateLimiter × List ℚ :=
  clock.foldl
    (fun p now =>
      let o := wait_if_needed p.1 now
      (o.st, p.2 ++ [now + o.waited]))
    (rl, [])

/-- Number of admission timestamps inside the trailing 60-second window
ending at `w` (the window `(w - 60, w]`, matching the source's strict
`now - t < 60` pruning test). -/
def inWindowCount (w : ℚ) (log : List ℚ) : ℕ :=
  (log.filter (fun t => decide (w - 60 < t) && decide (t ≤ w))).length

/-! ## Request executor (`PolygonStockAPI._make_request`) and per-date lookup -/

/-- JSON values, as far as the pipeline inspects them. -/
inductive Json where
  | null
  | bool (b : Bool)
  | num (q : ℚ)
  | str (s : String)
  | arr (elems : List Json)
  | obj (fields : List (String × Json))

/-- Python truthiness of a JSON value (used by the source's `result or
{"results": []}` idiom): `None`, `False`, `0`, `""`, `[]` and `{}` are falsy. -/
def Json.truthy : Json → Bool
  | .null => false
  | .bool b => b
  | .num q => decide (q ≠ 0)
  | .str s => decide (s ≠ "")
  | .arr elems => !elems.isEmpty
  | .obj fields => !fields.isEmpty

/-- One injected outcome of `requests.get`: either a transport-level
`RequestException`, or an HTTP response with a status code and a body
(`none` = the body is not decodable JSON, so `response.json()` raises). -/
inductive HttpResponse where
  | transport
  | response (status : ℕ) (body : Option Json)

/-- Observable outcome of one `_make_request` call: the returned value
(`none` on any error, mirroring the source's `return None` in every
`except` arm), the number of `requests.get` send attempts made, and the
list of `time.sleep(backoff_time)` durations, in order. -/
structure RequestOutcome where
  result : Option Json
  attempts : ℕ
  sleeps : List ℚ

/-- `PolygonStockAPI._make_request(url, params, retry_count, max_retries)`
over an injected list of per-attempt responses (`us i` is the jitter sample
used by the backoff computed at `retry_count = i`).  The source:
a 429 status with `retry_count < max_retries` sleeps
`calculate_backoff_time(5, retry_count)` and recurses with
`retry_count + 1`; otherwise `raise_for_status()` turns a client or server
error status (400 ≤ status < 600, the only range it raises for) into an
exception caught as `None`; any other status returns
`response.json()` (`None` if the body does not decode).  A transport
failure is `None` immediately.  An exhausted injected list is treated as a
transport failure. -/
def make_request (us : ℕ → ℚ) (max_retries : ℕ) :
    List HttpResponse → ℕ → RequestOutcome
  | [], _ => ⟨none, 1, []⟩
  | HttpResponse.transport :: _, _ => ⟨none, 1, []⟩
  | HttpResponse.response status body :: rest, retry_count =>
    if status = 429 ∧ retry_count < max_retries then
      let backoff_time := calculate_backoff_time 5 retry_count (us retry_count) 60
      let o := make_request us max_retries rest (retry_count + 1)
      ⟨o.result, o.attempts + 1, backoff_time :: o.sleeps⟩
    else if 400 ≤ status ∧ status < 600 then ⟨none, 1, []⟩
    else ⟨body, 1, []⟩

/-- The injected response for a 429 (Too Many Requests) answer. -/
def r429 : HttpResponse := HttpResponse.response 429 none

/-- The value `{"results": []}`. -/
def emptyResults : Json := Json.obj [("results", Json.arr [])]

/-- `PolygonStockAPI.get_previous_close(ticker)`: issues `_make_request`
(with the source's default `retry_count = 0`, `max_retries = 3`) and
returns `result or {"results": []}` — the Python `or` replaces both `None`
and any falsy decoded body by the empty default. -/
def get_previous_close (responses : List HttpResponse) (us : ℕ → ℚ) : Json :=
  match (make_request us 3 responses 0).result with
  | some j => if j.truthy then j else emptyResults
  | none => emptyResults

/-! ## Response normalizer (`PolygonStockAPI._process_ticker_data`) -/

/-- The normalized per-day record built by `_process_ticker_data`
(`open` is a Lean keyword, hence the field name `open_`). -/
structure TickerRecord where
  ticker : String
  date : String
  open_ : Json
  high : Json
  low : Json
  close : Json
  volume : Json

/-- Python's `data.get(key, 0)` on a JSON object, modelled as an
association list: the stored value, or `0` when the key is absent. -/
def jsonGet (data : List (String × Json)) (key : String) : Json :=
  ((data.find? (fun p => decide (p.1 = key))).map Prod.snd).getD (Json.num 0)

/-- `PolygonStockAPI._process_ticker_data(ticker, date, data, is_prev_close)`
with the date already a string (the `strftime` branch only formats a
datetime).  The source's body consists solely of the `if is_prev_close:`
block; when `is_prev_close` is false, control falls off the end of the
function and Python returns `None` — modelled as `none`. -/
def process_ticker_data (ticker : String) (date_str : String)
    (data : List (String × Json)) (is_prev_close : Bool) : Option TickerRecord :=
  if is_prev_close then
    some ⟨ticker, date_str, jsonGet data "o", jsonGet data "h", jsonGet data "l",
      jsonGet data "c", jsonGet data "v"⟩
  else
    none

/-! ## Fetch orchestrator (`PolygonStockAPI.get_stock_data`)

Each submitted ticker is fetched by `get_stock_data_for_ticker`, modelled
as an injected deterministic per-ticker environment `env`: `env t = none`
means the call raises an exception (the orchestrator's `except` arm stores
`[]`), `env t = some xs` means it returns the list `xs`.  The Python dict
`all_data` is modelled as an association list with insert-or-overwrite
writes, and the threaded path differs from the sequential path only in the
order in which the per-ticker writes happen (`as_completed` yields the
submitted futures in some permutation of the submission order). -/

/-- `all_data[k] = v` on a Python dict: overwrite in place if the key is
present (keeping its position), else append. -/
def dinsert {α β : Type} [DecidableEq α] (k : α) (v : β) :
    List (α × β) → List (α × β)
  | [] => [(k, v)]
  | (k', v') :: rest =>
    if k' = k then (k, v) :: rest else (k', v') :: dinsert k v rest

/-- Dict lookup: the value stored under `k`, if any. -/
def dlookup {α β : Type} [DecidableEq α] (k : α) (m : List (α × β)) : Option β :=
  (m.find? (fun p => decide (p.1 = k))).map Prod.snd

/-- The value the orchestrator stores for ticker `t`: the fetched list on
success, `[]` when the per-ticker call raises (`except` arm). -/
def tickerResult {α β : Type} (env : α → Option (List β)) (t : α) : List β :=
  (env t).getD []

/-- The orchestrator's collection loop: write one result per ticker into
`all_data`, processing tickers in the given order. -/
def collectResults {α β : Type} [DecidableEq α] (env : α → Option (List β))
    (order : List α) : List (α × List β) :=
  order.foldl (fun all_data t => dinsert t (tickerResult env t) all_data) []

/-- `get_stock_data(..., use_threading=False)`: sequential loop over the
submitted tickers, in submission order. -/
def get_stock_data_sequential {α β : Type} [DecidableEq α]
    (env : α → Option (List β)) (tickers : List α) : List (α × List β) :=
  collectResults env tickers

/-- `get_stock_data(..., use_threading=True)`: one future per submitted
ticker; `as_completed` delivers them in some `completion` order, a
permutation of the submitted tickers. -/
def get_stock_data_threaded {α β : Type} [DecidableEq α]
    (env : α → Option (List β)) (completion : List α) : List (α × List β) :=
  collectResults env completion

/-! ## Theorems -/

/-- C1 (amended): a `wait_if_needed` call made while the freshly pruned
in-window count is strictly below `max(burst, requests_per_minute)` — the
only counts at which the burst or per-minute check admits — admits without
waiting and leaves the in-window admission count at or below that ceiling.
The original claim's global bound fails: the `wait_time < 0.1` no-op branch
can admit at or above the ceiling (see the counterexample). -/
theorem c1_amended (rl : RateLimiter) (now : ℚ)
    (h : (pruneTimes now rl.request_times).length
          < max rl.burst rl.requests_per_minute) :
    (wait_if_needed rl now).waited = 0 ∧
      inWindowCount now (wait_if_needed rl now).st.request_times
        ≤ max rl.burst rl.requests_per_minute := by
  have hcount : inWindowCount now (pruneTimes now rl.request_times ++ [now])
      ≤ (pruneTimes now rl.request_times).length + 1 := by
    unfold inWindowCount
    rw [List.filter_append, List.length_append]
    have h1 := List.length_filter_le
      (fun t => decide (now - 60 < t) && decide (t ≤ now))
      (pruneTimes now rl.request_times)
    have h2 := List.length_filter_le
      (fun t => decide (now - 60 < t) && decide (t ≤ now)) [now]
    simp only [List.length_singleton] at h2
    omega
  rcases lt_max_iff.mp h with hb | hr
  · unfold wait_if_needed
    rw [if_pos hb]
    exact ⟨rfl, le_trans hcount (by omega)⟩
  · unfold wait_if_needed
    by_cases hb' : (pruneTimes now rl.request_times).length < rl.burst
    · rw [if_pos hb']
      exact ⟨rfl, le_trans hcount (by omega)⟩
    · rw [if_neg hb', if_pos hr]
      exact ⟨rfl, le_trans hcount (by omega)⟩

/-- C1 witness: the amended theorem applied to a fresh default limiter
(`requests_per_minute = 5`, `burst = 10`) at time 0. -/
theorem c1_witness :
    (pruneTimes 0 (RateLimiter.mk 5 10 []).request_times).length
        < max (RateLimiter.mk 5 10 []).burst (RateLimiter.mk 5 10 []).requests_per_minute ∧
      ((wait_if_needed (RateLimiter.mk 5 10 []) 0).waited = 0 ∧
        inWindowCount 0 (wait_if_needed (RateLimiter.mk 5 10 []) 0).st.request_times
          ≤ max (RateLimiter.mk 5 10 []).burst (RateLimiter.mk 5 10 []).requests_per_minute) :=
  ⟨by norm_num [pruneTimes], c1_amended (RateLimiter.mk 5 10 []) 0 (by norm_num [pruneTimes])⟩

/-- C1 counterexample: with `requests_per_minute = burst = 1`, calls at
times 0 and 59.95 are both admitted (the second through the
`wait_time < 0.1` branch), so the trailing 60-second window ending at
59.95 holds 2 admissions, exceeding `max(burst, requests_per_minute) = 1`. -/
theorem c1_counterexample :
    inWindowCount (1199/20) (runLimiter (RateLimiter.mk 1 1 []) [0, 1199/20]).2 = 2 ∧
      max (RateLimiter.mk 1 1 []).burst (RateLimiter.mk 1 1 []).requests_per_minute = 1 := by
  constructor
  · norm_num [inWindowCount, runLimiter, wait_if_needed, pruneTimes]
  · rfl

/-- C2 (amended): whenever `requests_per_minute <= burst` (not
`burst <= requests_per_minute` as claimed), the per-minute branch is
unreachable, and the immediate two-tier admission happens exactly when the
pruned count is below `burst` — `burst` is the effective ceiling. -/
theorem c2_amended (rl : RateLimiter) (now : ℚ)
    (h : rl.requests_per_minute ≤ rl.burst) :
    (wait_if_needed rl now).br ≠ RLBranch.perMinute ∧
      ((wait_if_needed rl now).br = RLBranch.burst ↔
        (pruneTimes now rl.request_times).length < rl.burst) := by
  unfold wait_if_needed
  by_cases hb : (pruneTimes now rl.request_times).length < rl.burst
  · rw [if_pos hb]
    exact ⟨by simp, by simp [hb]⟩
  · have hr : ¬ (pruneTimes now rl.request_times).length < rl.requests_per_minute := by
      omega
    rw [if_neg hb, if_neg hr]
    by_cases hw : max 0 (60 - (now - (pruneTimes now rl.request_times).headD 0)) < 1/10
    · rw [if_pos hw]
      exact ⟨by simp, by simp [hb]⟩
    · rw [if_neg hw]
      exact ⟨by simp, by simp [hb]⟩

/-- C2 witness: the amended theorem at the source's default configuration
`requests_per_minute = 5`, `burst = 10`, empty history, time 0. -/
theorem c2_witness :
    (RateLimiter.mk 5 10 []).requests_per_minute ≤ (RateLimiter.mk 5 10 []).burst ∧
      ((wait_if_needed (RateLimiter.mk 5 10 []) 0).br ≠ RLBranch.perMinute ∧
        ((wait_if_needed (RateLimiter.mk 5 10 []) 0).br = RLBranch.burst ↔
          (pruneTimes 0 (RateLimiter.mk 5 10 []).request_times).length
            < (RateLimiter.mk 5 10 []).burst)) :=
  ⟨by norm_num, c2_amended (RateLimiter.mk 5 10 []) 0 (by norm_num)⟩

/-- C2 counterexample: with `burst = 5 <= requests_per_minute = 10` and 5
in-window timestamps, the first (burst) check fails but the per-minute
check admits: the per-minute branch is reachable and admits a request the
burst check did not, refuting the claim for `burst <= requests_per_minute`. -/
theorem c2_counterexample :
    (wait_if_needed (RateLimiter.mk 10 5 [0, 0, 0, 0, 0]) 1).br = RLBranch.perMinute ∧
      (wait_if_needed (RateLimiter.mk 10 5 [0, 0, 0, 0, 0]) 1).waited = 0 ∧
      (RateLimiter.mk 10 5 [0, 0, 0, 0, 0]).burst
        ≤ (RateLimiter.mk 10 5 [0, 0, 0, 0, 0]).requests_per_minute := by
  refine ⟨?_, ?_, by norm_num⟩ <;> norm_num [wait_if_needed, pruneTimes]

/-- C9: every `wait_if_needed` call, on every return path, appends exactly
one timestamp (the pruned history plus the single entry `now + waited`),
returns a non-negative number of seconds, and takes the blocking path
exactly when the returned wait is at least 0.1 s — in which case the
recorded timestamp `now + waited` is the post-sleep clock reading, not the
pre-wait `now`. -/
theorem c9_every_path (rl : RateLimiter) (now : ℚ) :
    (wait_if_needed rl now).st.request_times
        = pruneTimes now rl.request_times ++ [now + (wait_if_needed rl now).waited] ∧
      0 ≤ (wait_if_needed rl now).waited ∧
      ((wait_if_needed rl now).br = RLBranch.waited ↔
        1/10 ≤ (wait_if_needed rl now).waited) := by
  unfold wait_if_needed
  by_cases hb : (pruneTimes now rl.request_times).length < rl.burst
  · rw [if_pos hb]
    refine ⟨by rw [add_zero], le_refl 0, by simp⟩
  · rw [if_neg hb]
    by_cases hr : (pruneTimes now rl.request_times).length < rl.requests_per_minute
    · rw [if_pos hr]
      refine ⟨by rw [add_zero], le_refl 0, by simp⟩
    · rw [if_neg hr]
      by_cases hw : max 0 (60 - (now - (pruneTimes now rl.request_times).headD 0)) < 1/10
      · rw [if_pos hw]
        exact ⟨by rw [add_zero], le_refl 0, iff_of_false (by simp) (by norm_num)⟩
      · rw [if_neg hw]
        exact ⟨rfl, le_max_left 0 _, iff_of_true rfl (le_of_not_lt hw)⟩

/-- C5 (amended): for `baseWait b > 0` and a jitter sample `u` in
`[-1, 1]`, `calculate_backoff_time(b, r)` equals
`max(0.1, w + w*0.1*u)` with `w = min(60, b*2^r)`, is always at least 0.1
(so never zero or negative), is within ±10% of `w` whenever the 0.1-second
floor is inactive (`w + w*0.1*u >= 0.1`), and is monotonically
non-decreasing in the retry count for a fixed jitter sample.  The original
claim's unconditional ±10% bound fails when the floor engages (see the
counterexample). -/
theorem c5_amended (b u : ℚ) (r r' : ℕ)
    (hb : 0 < b) (hu1 : -1 ≤ u) (hu2 : u ≤ 1) (hr : r ≤ r') :
    calculate_backoff_time b r u 60
        = max (1/10) (min 60 (b * 2 ^ r) + min 60 (b * 2 ^ r) * (1/10) * u) ∧
      1/10 ≤ calculate_backoff_time b r u 60 ∧
      0 < calculate_backoff_time b r u 60 ∧
      (1/10 ≤ min 60 (b * 2 ^ r) + min 60 (b * 2 ^ r) * (1/10) * u →
        |calculate_backoff_time b r u 60 - min 60 (b * 2 ^ r)|
          ≤ min 60 (b * 2 ^ r) * (1/10)) ∧
      calculate_backoff_time b r u 60 ≤ calculate_backoff_time b r' u 60 := by
  have hw : (0:ℚ) < min 60 (b * 2 ^ r) := lt_min (by norm_num) (by positivity)
  refine ⟨rfl, le_max_left _ _, lt_of_lt_of_le (by norm_num) (le_max_left _ _), ?_, ?_⟩
  · intro hf
    unfold calculate_backoff_time
    rw [max_eq_right hf]
    have hd : min 60 (b * 2 ^ r) + min 60 (b * 2 ^ r) * (1/10) * u - min 60 (b * 2 ^ r)
        = min 60 (b * 2 ^ r) * (1/10) * u := by ring
    rw [hd, abs_le]
    constructor <;> nlinarith [hw]
  · have hmono : min (60:ℚ) (b * 2 ^ r) ≤ min 60 (b * 2 ^ r') := by
      refine min_le_min (le_refl _) ?_
      have h2 : (2:ℚ) ^ r ≤ 2 ^ r' := pow_le_pow_right₀ (by norm_num) hr
      nlinarith
    unfold calculate_backoff_time
    refine max_le_max (le_refl _) ?_
    nlinarith [hmono, hw]

/-- C5 witness: the amended theorem at `b = 5`, `u = 1/2`, `r = 1 <= r' = 2`. -/
theorem c5_witness :
    (0:ℚ) < 5 ∧ (-1:ℚ) ≤ 1/2 ∧ (1/2:ℚ) ≤ 1 ∧ 1 ≤ 2 ∧
      (calculate_backoff_time 5 1 (1/2) 60
          = max (1/10) (min 60 (5 * 2 ^ 1) + min 60 (5 * 2 ^ 1) * (1/10) * (1/2)) ∧
        1/10 ≤ calculate_backoff_time 5 1 (1/2) 60 ∧
        0 < calculate_backoff_time 5 1 (1/2) 60 ∧
        ((1/10 : ℚ) ≤ min 60 (5 * 2 ^ 1) + min 60 (5 * 2 ^ 1) * (1/10) * (1/2) →
          |calculate_backoff_time 5 1 (1/2) 60 - min 60 (5 * 2 ^ 1)|
            ≤ min 60 (5 * 2 ^ 1) * (1/10)) ∧
        calculate_backoff_time 5 1 (1/2) 60 ≤ calculate_backoff_time 5 2 (1/2) 60) :=
  ⟨by norm_num, by norm_num, by norm_num, by norm_num,
    c5_amended 5 (1/2) 1 2 (by norm_num) (by norm_num) (by norm_num) (by norm_num)⟩

/-- C5 counterexample: at `baseWait = 1/100 > 0`, `r = 0`, jitter sample 0,
the result is the floor value 0.1, which differs from
`w = min(60, 1/100 * 2^0) = 1/100` by 9/100 — far more than the claimed
±10% of `w` (1/1000). -/
theorem c5_counterexample :
    (0:ℚ) < 1/100 ∧ (-1:ℚ) ≤ 0 ∧ (0:ℚ) ≤ 1 ∧
      calculate_backoff_time (1/100) 0 0 60 = 1/10 ∧
      ¬ |calculate_backoff_time (1/100) 0 0 60 - min 60 ((1/100) * 2 ^ 0)|
          ≤ min 60 ((1/100) * 2 ^ 0) * (1/10) := by
  refine ⟨by norm_num, by norm_num, by norm_num, by norm_num [calculate_backoff_time], ?_⟩
  have h : calculate_backoff_time (1/100) 0 0 60 - min 60 ((1/100) * 2 ^ 0) = 9/100 := by
    norm_num [calculate_backoff_time]
  rw [h, abs_of_nonneg (by norm_num : (0:ℚ) ≤ 9/100)]
  norm_num

lemma make_request_replicate429_ok (us : ℕ → ℚ) (mr : ℕ) (j : Json)
    (rest : List HttpResponse) :
    ∀ (k rc : ℕ), rc + k ≤ mr →
      make_request us mr
          (List.replicate k r429 ++ HttpResponse.response 200 (some j) :: rest) rc
        = ⟨some j, k + 1,
            (List.range k).map (fun i => calculate_backoff_time 5 (rc + i) (us (rc + i)) 60)⟩ := by
  intro k
  induction k with
  | zero =>
    intro rc h
    norm_num [make_request]
  | succ k ih =>
    intro rc h
    have hrc : rc < mr := by omega
    have hih := ih (rc + 1) (by omega)
    rw [List.replicate_succ, List.cons_append]
    show make_request us mr (HttpResponse.response 429 none :: _) rc = _
    rw [make_request, if_pos ⟨rfl, hrc⟩, hih]
    have hlist :
        (List.range (k + 1)).map (fun i => calculate_backoff_time 5 (rc + i) (us (rc + i)) 60)
          = calculate_backoff_time 5 rc (us rc) 60 ::
              (List.range k).map (fun i => calculate_backoff_time 5 (rc + 1 + i) (us (rc + 1 + i)) 60) := by
      rw [List.range_succ_eq_map, List.map_cons, List.map_map]
      refine congrArg₂ _ (by norm_num) ?_
      refine List.map_congr_left (fun i _ => ?_)
      have : rc + (i + 1) = rc + 1 + i := by omega
      simp [Function.comp, this]
    rw [hlist]

lemma make_request_replicate429_exhaust (us : ℕ → ℚ) (mr : ℕ)
    (rest : List HttpResponse) :
    ∀ (k rc : ℕ), rc + k = mr →
      make_request us mr (List.replicate (k + 1) r429 ++ rest) rc
        = ⟨none, k + 1,
            (List.range k).map (fun i => calculate_backoff_time 5 (rc + i) (us (rc + i)) 60)⟩ := by
  intro k
  induction k with
  | zero =>
    intro rc h
    rw [List.replicate_succ, List.replicate_zero, List.cons_append, List.nil_append]
    show make_request us mr (HttpResponse.response 429 none :: rest) rc = _
    rw [make_request, if_neg (by omega), if_pos (by norm_num)]
    norm_num
  | succ k ih =>
    intro rc h
    have hrc : rc < mr := by omega
    have hih := ih (rc + 1) (by omega)
    rw [List.replicate_succ, List.cons_append]
    show make_request us mr (HttpResponse.response 429 none :: _) rc = _
    rw [make_request, if_pos ⟨rfl, hrc⟩, hih]
    have hlist :
        (List.range (k + 1)).map (fun i => calculate_backoff_time 5 (rc + i) (us (rc + i)) 60)
          = calculate_backoff_time 5 rc (us rc) 60 ::
              (List.range k).map (fun i => calculate_backoff_time 5 (rc + 1 + i) (us (rc + 1 + i)) 60) := by
      rw [List.range_succ_eq_map, List.map_cons, List.map_map]
      refine congrArg₂ _ (by norm_num) ?_
      refine List.map_congr_left (fun i _ => ?_)
      have : rc + (i + 1) = rc + 1 + i := by omega
      simp [Function.comp, this]
    rw [hlist]

/-- C3: injecting `k` consecutive 429 responses followed by a 200 with a
decodable body, with `k < max_retries`, makes `_make_request` return that
body after exactly `k+1` send attempts, having slept exactly
`calculate_backoff_time(5, i)` between attempts `i` and `i+1`; injecting
429 responses through `retry_count = max_retries` makes it stop after
`max_retries + 1` attempts with the failure outcome `none` (the value the
source surfaces for exhausted retries). -/
theorem c3_retry_behavior (us : ℕ → ℚ) (mr k : ℕ) (j : Json)
    (rest rest' : List HttpResponse) (hk : k < mr) :
    make_request us mr
        (List.replicate k r429 ++ HttpResponse.response 200 (some j) :: rest) 0
      = ⟨some j, k + 1, (List.range k).map (fun i => calculate_backoff_time 5 i (us i) 60)⟩ ∧
      make_request us mr (List.replicate (mr + 1) r429 ++ rest') 0
        = ⟨none, mr + 1, (List.range mr).map (fun i => calculate_backoff_time 5 i (us i) 60)⟩ := by
  constructor
  · rw [make_request_replicate429_ok us mr j rest k 0 (by omega)]
    norm_num
  · rw [make_request_replicate429_exhaust us mr rest' mr 0 (by omega)]
    norm_num

/-- C3 witness: the theorem at `max_retries = 3` with one 429 before the
200, and with four straight 429s. -/
theorem c3_witness :
    1 < 3 ∧
      (make_request (fun _ => (0:ℚ)) 3
          (List.replicate 1 r429 ++ HttpResponse.response 200 (some Json.null) :: []) 0
        = ⟨some Json.null, 1 + 1,
            (List.range 1).map (fun i => calculate_backoff_time 5 i ((fun _ => (0:ℚ)) i) 60)⟩ ∧
      make_request (fun _ => (0:ℚ)) 3 (List.replicate (3 + 1) r429 ++ []) 0
        = ⟨none, 3 + 1,
            (List.range 3).map (fun i => calculate_backoff_time 5 i ((fun _ => (0:ℚ)) i) 60)⟩) :=
  ⟨by norm_num, c3_retry_behavior (fun _ => 0) 3 1 Json.null [] [] (by norm_num)⟩

/-- C4 (amended): a 404 on the per-date lookup yields the benign empty
result `{"results": []}`, not a failure; a transport failure on the same
lookup yields the very same empty result — contrary to the claim, no
failure of kind Network (or of any kind) is surfaced to the caller of
`get_previous_close`. -/
theorem c4_amended (b : Option Json) (rest : List HttpResponse) (us : ℕ → ℚ) :
    get_previous_close (HttpResponse.response 404 b :: rest) us = emptyResults ∧
      get_previous_close (HttpResponse.transport :: rest) us = emptyResults := by
  constructor
  · unfold get_previous_close
    rw [make_request, if_neg (by norm_num), if_pos (by norm_num)]
  · rfl

/-- C4 counterexample: on an injected transport failure,
`get_previous_close` returns exactly the same value `{"results": []}` as on
a 404 — the transport failure is delivered as the benign empty result, not
surfaced as a failure of kind Network, refuting the claim's second half. -/
theorem c4_counterexample :
    get_previous_close [HttpResponse.transport] (fun _ => 0)
        = get_previous_close [HttpResponse.response 404 none] (fun _ => 0) ∧
      get_previous_close [HttpResponse.transport] (fun _ => 0) = emptyResults := by
  constructor
  · norm_num [get_previous_close, make_request]
  · rfl

/-- C10 counterexample: the claim's "any non-2xx status" is too wide — a
302 (non-2xx) response with a decodable body is returned as that body, not
as `None`: `raise_for_status` raises only for statuses in 400..599. -/
theorem c10_counterexample :
    (make_request (fun _ => (0:ℚ)) 3 [HttpResponse.response 302 (some Json.null)] 0).result
        = some Json.null ∧
      ¬(200 ≤ 302 ∧ 302 < 300) := by
  constructor
  · norm_num [make_request]
  · norm_num

/-- C10 (amended): `_make_request` returns `none` on every error outcome —
transport failure, any client or server error status in 400..599 that is
not retried (including 429 past `max_retries`), and a 2xx with an
undecodable body alike — while a response whose status lies outside
400..599 (e.g. a 3xx) is no error to `raise_for_status` and its decoded
body is returned; `get_previous_close` maps the error `none` to
`{"results": []}`, so its caller never sees `None` and receives for a
transport failure exactly the value it receives for a legitimate 200 whose
body is `{"results": []}` — failure kinds are indistinguishable from a
legitimately empty result. -/
theorem c10_error_collapse (us : ℕ → ℚ) (rest : List HttpResponse)
    (s s' rc mr : ℕ) (b : Option Json) (j : Json)
    (hs : 400 ≤ s) (hs6 : s < 600) (h429 : ¬(s = 429 ∧ rc < mr))
    (hns : ¬(400 ≤ s' ∧ s' < 600)) (hns429 : ¬(s' = 429 ∧ rc < mr)) :
    (make_request us mr (HttpResponse.transport :: rest) rc).result = none ∧
      (make_request us mr (HttpResponse.response s b :: rest) rc).result = none ∧
      (make_request us mr (HttpResponse.response 200 none :: rest) rc).result = none ∧
      (make_request us mr (HttpResponse.response s' (some j) :: rest) rc).result = some j ∧
      get_previous_close (HttpResponse.transport :: rest) us = emptyResults ∧
      get_previous_close (HttpResponse.transport :: rest) us
        = get_previous_close [HttpResponse.response 200 (some emptyResults)] us := by
  refine ⟨rfl, ?_, ?_, ?_, rfl, ?_⟩
  · rw [make_request, if_neg h429, if_pos ⟨hs, hs6⟩]
  · rw [make_request]
    norm_num
  · rw [make_request, if_neg hns429, if_neg hns]
  · norm_num [get_previous_close, make_request, Json.truthy, emptyResults]

/-- C10 witness: the amended theorem at the error status 500, the non-error
status 302, `retry_count = 0`, `max_retries = 3`. -/
theorem c10_witness :
    400 ≤ 500 ∧ 500 < 600 ∧ ¬(500 = 429 ∧ 0 < 3) ∧
      ¬(400 ≤ 302 ∧ 302 < 600) ∧ ¬(302 = 429 ∧ 0 < 3) ∧
      ((make_request (fun _ => (0:ℚ)) 3 (HttpResponse.transport :: []) 0).result = none ∧
        (make_request (fun _ => (0:ℚ)) 3 (HttpResponse.response 500 none :: []) 0).result = none ∧
        (make_request (fun _ => (0:ℚ)) 3 (HttpResponse.response 200 none :: []) 0).result = none ∧
        (make_request (fun _ => (0:ℚ)) 3 (HttpResponse.response 302 (some Json.null) :: []) 0).result
          = some Json.null ∧
        get_previous_close (HttpResponse.transport :: []) (fun _ => 0) = emptyResults ∧
        get_previous_close (HttpResponse.transport :: []) (fun _ => 0)
          = get_previous_close [HttpResponse.response 200 (some emptyResults)] (fun _ => 0)) :=
  ⟨by norm_num, by norm_num, by norm_num, by norm_num, by norm_num,
    c10_error_collapse (fun _ => 0) [] 500 302 0 3 none Json.null
      (by norm_num) (by norm_num) (by norm_num) (by norm_num) (by norm_num)⟩

lemma dlookup_cons {α β : Type} [DecidableEq α] (k a : α) (b : β) (m : List (α × β)) :
    dlookup k ((a, b) :: m) = if a = k then some b else dlookup k m := by
  unfold dlookup
  rw [List.find?]
  by_cases h : a = k
  · simp [h]
  · simp [h]

lemma dlookup_dinsert {α β : Type} [DecidableEq α] (k t : α) (v : β) (m : List (α × β)) :
    dlookup k (dinsert t v m) = if t = k then some v else dlookup k m := by
  induction m with
  | nil => rw [dinsert, dlookup_cons]
  | cons p rest ih =>
    obtain ⟨a, b⟩ := p
    rw [dinsert]
    by_cases hat : a = t
    · rw [if_pos hat, dlookup_cons, dlookup_cons]
      by_cases htk : t = k
      · rw [if_pos htk, if_pos htk]
      · rw [if_neg htk, if_neg htk, if_neg (by rw [hat]; exact htk)]
    · rw [if_neg hat, dlookup_cons, dlookup_cons, ih]
      by_cases hak : a = k
      · rw [if_pos hak, if_neg (by rw [← hak]; intro h; exact hat h.symm), if_pos hak]
      · rw [if_neg hak, if_neg hak]

lemma dlookup_collect_aux {α β : Type} [DecidableEq α] (env : α → Option (List β))
    (order : List α) :
    ∀ (m : List (α × List β)) (k : α),
      dlookup k (order.foldl (fun all_data t => dinsert t (tickerResult env t) all_data) m)
        = if k ∈ order then some (tickerResult env k) else dlookup k m := by
  induction order with
  | nil => intro m k; simp
  | cons t rest ih =>
    intro m k
    rw [List.foldl_cons, ih]
    by_cases hk : k ∈ rest
    · rw [if_pos hk, if_pos (List.mem_cons_of_mem t hk)]
    · rw [if_neg hk, dlookup_dinsert]
      by_cases htk : t = k
      · rw [if_pos htk, if_pos (htk ▸ List.mem_cons_self t rest), htk]
      · rw [if_neg htk, if_neg (by rw [List.mem_cons]; rintro (h | h); exacts [htk h.symm, hk h])]

lemma dlookup_collect {α β : Type} [DecidableEq α] (env : α → Option (List β))
    (order : List α) (k : α) :
    dlookup k (collectResults env order)
      = if k ∈ order then some (tickerResult env k) else none := by
  rw [collectResults, dlookup_collect_aux]
  rfl

lemma mem_keys_dinsert {α β : Type} [DecidableEq α] (x t : α) (v : β) (m : List (α × β)) :
    x ∈ (dinsert t v m).map Prod.fst ↔ x = t ∨ x ∈ m.map Prod.fst := by
  induction m with
  | nil => simp [dinsert]
  | cons p rest ih =>
    obtain ⟨a, b⟩ := p
    rw [dinsert]
    by_cases hat : a = t
    · rw [if_pos hat]
      simp [hat, or_comm]
    · rw [if_neg hat]
      simp only [List.map_cons, List.mem_cons, ih]
      tauto

lemma nodup_keys_dinsert {α β : Type} [DecidableEq α] (t : α) (v : β) (m : List (α × β))
    (h : (m.map Prod.fst).Nodup) : ((dinsert t v m).map Prod.fst).Nodup := by
  induction m with
  | nil => simp [dinsert]
  | cons p rest ih =>
    obtain ⟨a, b⟩ := p
    simp only [List.map_cons, List.nodup_cons] at h
    rw [dinsert]
    by_cases hat : a = t
    · rw [if_pos hat]
      simp only [List.map_cons, List.nodup_cons]
      exact ⟨hat ▸ h.1, h.2⟩
    · rw [if_neg hat]
      simp only [List.map_cons, List.nodup_cons]
      refine ⟨?_, ih h.2⟩
      rw [mem_keys_dinsert]
      rintro (h1 | h2)
      · exact hat h1
      · exact h.1 h2

lemma nodup_keys_collect_aux {α β : Type} [DecidableEq α] (env : α → Option (List β))
    (order : List α) :
    ∀ (m : List (α × List β)), (m.map Prod.fst).Nodup →
      ((order.foldl (fun all_data t => dinsert t (tickerResult env t) all_data) m).map
          Prod.fst).Nodup := by
  induction order with
  | nil => intro m h; exact h
  | cons t rest ih =>
    intro m h
    rw [List.foldl_cons]
    exact ih _ (nodup_keys_dinsert t _ m h)

lemma nodup_keys_collect {α β : Type} [DecidableEq α] (env : α → Option (List β))
    (order : List α) : ((collectResults env order).map Prod.fst).Nodup :=
  nodup_keys_collect_aux env order [] (by simp)

lemma mem_keys_collect_aux {α β : Type} [DecidableEq α] (env : α → Option (List β))
    (order : List α) :
    ∀ (m : List (α × List β)) (x : α),
      x ∈ ((order.foldl (fun all_data t => dinsert t (tickerResult env t) all_data) m).map
            Prod.fst)
        ↔ x ∈ order ∨ x ∈ m.map Prod.fst := by
  induction order with
  | nil => intro m x; simp
  | cons t rest ih =>
    intro m x
    rw [List.foldl_cons, ih, mem_keys_dinsert, List.mem_cons]
    tauto

lemma mem_keys_collect {α β : Type} [DecidableEq α] (env : α → Option (List β))
    (order : List α) (x : α) :
    x ∈ (collectResults env order).map Prod.fst ↔ x ∈ order := by
  rw [collectResults, mem_keys_collect_aux]
  simp

/-- C6: for every deterministic injected per-ticker environment, the
threaded run (writes in any completion order, a permutation of the
submitted tickers) and the sequential run produce the same mapping: every
key looks up to the same value. -/
theorem c6_threading_equivalence {α β : Type} [DecidableEq α]
    (env : α → Option (List β)) (tickers completion : List α) (k : α)
    (h : completion.Perm tickers) :
    dlookup k (get_stock_data_threaded env completion)
      = dlookup k (get_stock_data_sequential env tickers) := by
  rw [get_stock_data_threaded, get_stock_data_sequential, dlookup_collect, dlookup_collect]
  by_cases hk : k ∈ tickers
  · rw [if_pos hk, if_pos (h.mem_iff.mpr hk)]
  · rw [if_neg hk, if_neg (fun hc => hk (h.mem_iff.mp hc))]

/-- C6 witness: the theorem on tickers `["WIX", "GOOGL"]` completed in
reversed order. -/
theorem c6_witness :
    (["GOOGL", "WIX"] : List String).Perm ["WIX", "GOOGL"] ∧
      dlookup "WIX"
          (get_stock_data_threaded
            (fun t => if t = "WIX" then some [(1:ℚ)] else none) ["GOOGL", "WIX"])
        = dlookup "WIX"
            (get_stock_data_sequential
              (fun t => if t = "WIX" then some [(1:ℚ)] else none) ["WIX", "GOOGL"]) :=
  ⟨List.Perm.swap "WIX" "GOOGL" [],
    c6_threading_equivalence (fun t => if t = "WIX" then some [(1:ℚ)] else none)
      ["WIX", "GOOGL"] ["GOOGL", "WIX"] "WIX" (List.Perm.swap "WIX" "GOOGL" [])⟩

/-- C7: the orchestrator's mapping has no duplicate keys and contains a key
exactly for each submitted ticker (exactly one entry per ticker, never zero
and never two); a ticker whose fetch raises is recorded with the failure
marker `[]` the source's `except` arm stores, and every other ticker's
entry is the same as in a run from which the faulting ticker was removed. -/
theorem c7_per_item_isolation {α β : Type} [DecidableEq α]
    (env : α → Option (List β)) (tickers : List α) (t k s : α)
    (hfault : env t = none) (hk : k ≠ t) :
    ((get_stock_data_sequential env tickers).map Prod.fst).Nodup ∧
      (s ∈ (get_stock_data_sequential env tickers).map Prod.fst ↔ s ∈ tickers) ∧
      dlookup t (get_stock_data_sequential env tickers)
        = (if t ∈ tickers then some ([] : List β) else none) ∧
      dlookup k (get_stock_data_sequential env tickers)
        = dlookup k (get_stock_data_sequential env (tickers.filter (fun x => x ≠ t))) := by
  refine ⟨nodup_keys_collect env tickers, mem_keys_collect env tickers s, ?_, ?_⟩
  · rw [get_stock_data_sequential, dlookup_collect]
    have : tickerResult env t = [] := by rw [tickerResult, hfault]; rfl
    rw [this]
  · rw [get_stock_data_sequential, get_stock_data_sequential, dlookup_collect, dlookup_collect]
    have hmem : k ∈ tickers.filter (fun x => x ≠ t) ↔ k ∈ tickers := by
      rw [List.mem_filter]
      simp [hk]
    by_cases hkt : k ∈ tickers
    · rw [if_pos hkt, if_pos (hmem.mpr hkt)]
    · rw [if_neg hkt, if_neg (fun hc => hkt (hmem.mp hc))]

/-- C7 witness: the theorem on `["WIX", "FAIL", "GOOGL"]` where only
`"FAIL"` raises. -/
theorem c7_witness :
    (fun t => if t = "FAIL" then none else some [(1:ℚ)]) "FAIL" = none ∧
      ("WIX" : String) ≠ "FAIL" ∧
      (((get_stock_data_sequential (fun t => if t = "FAIL" then none else some [(1:ℚ)])
            ["WIX", "FAIL", "GOOGL"]).map Prod.fst).Nodup ∧
        ("GOOGL" ∈ (get_stock_data_sequential
              (fun t => if t = "FAIL" then none else some [(1:ℚ)])
              ["WIX", "FAIL", "GOOGL"]).map Prod.fst ↔
            ("GOOGL" : String) ∈ ["WIX", "FAIL", "GOOGL"]) ∧
        dlookup "FAIL" (get_stock_data_sequential
            (fun t => if t = "FAIL" then none else some [(1:ℚ)]) ["WIX", "FAIL", "GOOGL"])
          = (if ("FAIL" : String) ∈ ["WIX", "FAIL", "GOOGL"] then some ([] : List ℚ) else none) ∧
        dlookup "WIX" (get_stock_data_sequential
            (fun t => if t = "FAIL" then none else some [(1:ℚ)]) ["WIX", "FAIL", "GOOGL"])
          = dlookup "WIX" (get_stock_data_sequential
              (fun t => if t = "FAIL" then none else some [(1:ℚ)])
              (["WIX", "FAIL", "GOOGL"].filter (fun x => x ≠ "FAIL")))) :=
  ⟨rfl, by simp,
    c7_per_item_isolation (fun t => if t = "FAIL" then none else some [(1:ℚ)])
      ["WIX", "FAIL", "GOOGL"] "FAIL" "WIX" "GOOGL" rfl (by simp)⟩

/-- C8: evaluations of `_process_ticker_data`.  For the per-date
(previous-close) shape the function is total and defaults every missing
`o/h/l/c/v` field to 0, as claimed; but for the aggregate-endpoint shape
(`is_prev_close = False`) it falls off the end of the function body and
returns `None` instead of a record — contradicting the claim and the
function's own docstring (a normalized dictionary "regardless of source"). -/
theorem c8_normalizer_shapes :
    process_ticker_data "WIX" "2026-01-01" [("o", Json.num 3)] false = none ∧
      process_ticker_data "WIX" "2026-01-01" [] true
        = some ⟨"WIX", "2026-01-01", Json.num 0, Json.num 0, Json.num 0, Json.num 0,
            Json.num 0⟩ ∧
      process_ticker_data "WIX" "2026-01-01" [("o", Json.num 3)] true
        = some ⟨"WIX", "2026-01-01", Json.num 3, Json.num 0, Json.num 0, Json.num 0,
            Json.num 0⟩ :=
  ⟨rfl, rfl, rfl⟩

end StockPipeline
